import Mathlib

/-!
Verification development for the parallel-request-controller repository.

The Go server (src/server) and the two clients (src/client in Go,
src/client-js in TypeScript) are shallowly embedded: Go/JS maps become
association lists with explicit lookup/insert/erase, unsigned machine
integers become `Nat` (no operation in the modelled code can overflow a
32-bit counter: increments are guarded by `count < limit` with
`limit < 2^32`), and message sends become explicit output lists.
-/

namespace PRC

/-! ### Association-list model of Go / JS maps

A Go `map[K]V` read returns the zero value when the key is absent; we model
maps as association lists with a defaulted lookup.  Keys of a real map are
unique; theorems that need this carry a `Nodup` hypothesis on the key list.
-/

/-- Defaulted lookup: the value of the first entry with key `k`, or `d`. -/
def lookupD {κ α : Type} [DecidableEq κ] (m : List (κ × α)) (k : κ) (d : α) : α :=
  match m with
  | [] => d
  | (k', v) :: rest => if k' = k then v else lookupD rest k d

/-- Map write `m[k] = v`: replace the first entry with key `k`, or append. -/
def alistSet {κ α : Type} [DecidableEq κ] (m : List (κ × α)) (k : κ) (v : α) :
    List (κ × α) :=
  match m with
  | [] => [(k, v)]
  | (k', v') :: rest =>
    if k' = k then (k, v) :: rest else (k', v') :: alistSet rest k v

/-- Map delete `delete(m, k)`: remove the first entry with key `k`. -/
def alistErase {κ α : Type} [DecidableEq κ] (m : List (κ × α)) (k : κ) :
    List (κ × α) :=
  match m with
  | [] => []
  | (k', v') :: rest =>
    if k' = k then rest else (k', v') :: alistErase rest k

/-! ### Counter Registry — src/server/main.go, `RequestController`

`counts` is the Go `map[string]uint32` from request type to active count.
-/

/-- Server-side registry of active request counts (`RequestController`). -/
structure RequestController where
  counts : List (String × Nat)
deriving DecidableEq

/-- Fresh registry (`CreateRequestController`). -/
def CreateRequestController : RequestController := ⟨[]⟩

/-- Go `TryStartRequest`: read `c := counts[t]`; if `c >= limit` reject with
no mutation, else store `c + 1` and admit.  Returns (admitted?, new state). -/
def RequestController.TryStartRequest (rc : RequestController)
    (requestType : String) (limit : Nat) : Bool × RequestController :=
  let c := lookupD rc.counts requestType 0
  if c ≥ limit then (false, rc)
  else (true, ⟨alistSet rc.counts requestType (c + 1)⟩)

/-- Go `EndRequest`: read `c := counts[t]`; `c = 0` is a silent no-op,
`c = 1` deletes the entry, otherwise store `c - 1`. -/
def RequestController.EndRequest (rc : RequestController)
    (requestType : String) : RequestController :=
  let c := lookupD rc.counts requestType 0
  if c = 0 then rc
  else if c = 1 then ⟨alistErase rc.counts requestType⟩
  else ⟨alistSet rc.counts requestType (c - 1)⟩

/-- Go `GetRequestCount`: map read, `0` when absent. -/
def RequestController.GetRequestCount (rc : RequestController)
    (requestType : String) : Nat :=
  lookupD rc.counts requestType 0

/-- Registry operations available to connection handlers, for stating
invariants of all reachable registry states. -/
inductive RegistryOp where
  | tryStart (requestType : String) (limit : Nat)
  | endReq (requestType : String)
  | getCount (requestType : String)
deriving DecidableEq

/-- Effect of one registry operation on the registry state
(`GetRequestCount` reads under the lock and does not mutate). -/
def applyRegistryOp (rc : RequestController) : RegistryOp → RequestController
  | .tryStart t limit => (rc.TryStartRequest t limit).2
  | .endReq t => rc.EndRequest t
  | .getCount _ => rc

/-- Registry state after running a sequence of operations from the empty
registry created by `CreateRequestController`. -/
def runRegistryOps (ops : List RegistryOp) : RequestController :=
  ops.foldl applyRegistryOp CreateRequestController

/-! ### Wire messages

The Go sides use the external `go-simple-rpc-message` library; its message
value is a method name, a string parameter map, and a body. -/

/-- RPC message (`RPCMessage` of the message library). -/
structure RPCMessage where
  Method : String
  Params : List (String × String)
  Body : String
deriving DecidableEq

/-- Modelled from the message library interface: `GetParam` returns the
parameter value, or the empty string when the parameter is absent. -/
def RPCMessage.GetParam (msg : RPCMessage) (key : String) : String :=
  lookupD msg.Params key ""

/-- Modelled from Go `strconv.ParseUint(s, 10, 32)`: accepts a non-empty
all-digit decimal string whose value fits in 32 bits, errors otherwise. -/
def parseUint32 (s : String) : Option Nat :=
  if s.data ≠ [] ∧ s.data.all Char.isDigit then
    let n := s.data.foldl (fun acc c => acc * 10 + (c.toNat - '0'.toNat)) 0
    if n < 4294967296 then some n else none
  else none

/-! ### Connection Handler — src/server/connection.go

`requests` is the handler-private `map[string]string` from request id to
request type (`openRequests` in the spec); `closed` its close flag.  The
socket, logger, connection id, and heartbeat timestamp fields carry no
admission state and are omitted.  Sending a message is modelled by
returning it in an output list. -/

/-- Server-side per-connection handler state (`ConnectionHandler`). -/
structure ConnectionHandler where
  requests : List (String × String)
  closed : Bool
deriving DecidableEq

/-- Go `SendErrorMessage`: the ERROR message it writes to the socket. -/
def SendErrorMessage (errorCode errorMessage : String) : RPCMessage :=
  ⟨"ERROR", [("Error-Code", errorCode), ("Error-Message", errorMessage)], ""⟩

/-- Error text the server sends for a duplicated request id. -/
def duplicatedRequestIdText : String :=
  "You sent multiple \x27START-REQUEST\x27 messages with the same request id. Only the first one applies. The rest will are dropped."

/-- Go `AddRequest`: duplicate when the stored type for the id is non-empty
(ids are only ever stored with a non-empty type); otherwise record
`(id → type)`.  Returns (available?, new state). -/
def ConnectionHandler.AddRequest (ch : ConnectionHandler)
    (requestId requestType : String) : Bool × ConnectionHandler :=
  let rt := lookupD ch.requests requestId ""
  if rt.length > 0 then (false, ch)
  else (true, { ch with requests := alistSet ch.requests requestId requestType })

/-- Go `RemoveRequest`: empty result when the id is not open; otherwise
delete the entry and return its type. -/
def ConnectionHandler.RemoveRequest (ch : ConnectionHandler)
    (requestId : String) : String × ConnectionHandler :=
  let rt := lookupD ch.requests requestId ""
  if rt.length = 0 then ("", ch)
  else (rt, { ch with requests := alistErase ch.requests requestId })

/-- Go `receiveStartRequest`: validate the three parameters (each missing or
invalid one replies PROTOCOL_ERROR and stops), reject duplicate ids with
REQUEST_ID_DUPLICATED, otherwise record the id, consult the registry and
reply START-REQUEST-ACK with Request-Limit-Reached.  Returns the new
handler state, new registry state, and the messages sent. -/
def ConnectionHandler.receiveStartRequest (ch : ConnectionHandler)
    (rc : RequestController) (msg : RPCMessage) :
    ConnectionHandler × RequestController × List RPCMessage :=
  let requestId := msg.GetParam "Request-ID"
  if requestId.length = 0 then
    (ch, rc, [SendErrorMessage "PROTOCOL_ERROR"
      "Missing parameter \x27Request-ID\x27 for message \x27START-REQUEST\x27"])
  else
    let requestType := msg.GetParam "Request-Type"
    if requestType.length = 0 then
      (ch, rc, [SendErrorMessage "PROTOCOL_ERROR"
        "Missing parameter \x27Request-Type\x27 for message \x27START-REQUEST\x27"])
    else
      match parseUint32 (msg.GetParam "Request-Limit") with
      | none =>
        (ch, rc, [SendErrorMessage "PROTOCOL_ERROR"
          "Parameter \x27Request-Limit\x27 for message \x27START-REQUEST\x27 must be a valid integer"])
      | some requestLimit =>
        let res := ch.AddRequest requestId requestType
        if !res.1 then
          (ch, rc, [SendErrorMessage "REQUEST_ID_DUPLICATED" duplicatedRequestIdText])
        else
          let res2 := rc.TryStartRequest requestType requestLimit
          let limited := if !res2.1 then "TRUE" else "FALSE"
          (res.2, res2.2,
            [⟨"START-REQUEST-ACK",
              [("Request-ID", requestId), ("Request-Limit-Reached", limited)], ""⟩])

/-- Go `receiveEndRequest`: missing id replies PROTOCOL_ERROR; an id that is
not open is silently ignored; otherwise the entry is removed and the
registry releases one count of its type. -/
def ConnectionHandler.receiveEndRequest (ch : ConnectionHandler)
    (rc : RequestController) (msg : RPCMessage) :
    ConnectionHandler × RequestController × List RPCMessage :=
  let requestId := msg.GetParam "Request-ID"
  if requestId.length = 0 then
    (ch, rc, [SendErrorMessage "PROTOCOL_ERROR"
      "Missing parameter \x27Request-ID\x27 for message \x27END-REQUEST\x27"])
  else
    let res := ch.RemoveRequest requestId
    if res.1.length = 0 then (res.2, rc, [])
    else (res.2, rc.EndRequest res.1, [])

/-- Go `receiveGetRequestCount`: missing type replies PROTOCOL_ERROR;
otherwise reply REQUEST-COUNT with the registry count rendered in decimal. -/
def ConnectionHandler.receiveGetRequestCount (ch : ConnectionHandler)
    (rc : RequestController) (msg : RPCMessage) :
    ConnectionHandler × RequestController × List RPCMessage :=
  let requestType := msg.GetParam "Request-Type"
  if requestType.length = 0 then
    (ch, rc, [SendErrorMessage "PROTOCOL_ERROR"
      "Missing parameter \x27Request-Type\x27 for message \x27GET-REQUEST-COUNT\x27"])
  else
    (ch, rc, [⟨"REQUEST-COUNT",
      [("Request-Type", requestType), ("Request-Count", toString (rc.GetRequestCount requestType))], ""⟩])

/-- Go `onClose`, the cleanup that `Run` defers on every exit path (read
error, panic, explicit close, heartbeat-timeout forced close): it sets the
closed flag and returns.  The release of the entries still in `requests` is
absent in the source (its body ends at the comment
`TODO: Finish all pending requests`), so the registry is returned
unchanged. -/
def ConnectionHandler.onClose (ch : ConnectionHandler)
    (rc : RequestController) : ConnectionHandler × RequestController :=
  ({ ch with closed := true }, rc)

/-! ### Client-side shared data -/

/-- Pending start entry: request type and limit remembered per id
(Go `PendingRequest` in src/client/connection.go and the identical JS
`PendingRequest` in src/client-js/src/utils.ts). -/
structure PendingRequest where
  requestType : String
  limit : Nat
deriving DecidableEq

/-- Outcome of the race between the one-shot ack listener and the timeout
timer inside a client start call: the two resolution sources of the
suspension point, passed explicitly to the embedded facade functions. -/
inductive AckOutcome where
  | acked (limited : Bool)
  | timedOut
deriving DecidableEq

namespace GoClient

/-- Go client connection state (src/client/connection.go `Connection`):
`connected` is the close flag, `socketOpen` models `socket != nil` (the
guard in `Send`), `pendingRequests` the replay table id → (type, limit),
`pendingRequestCounts` the per-type outstanding-query reference counts. -/
structure Connection where
  connected : Bool
  socketOpen : Bool
  pendingRequests : List (Nat × PendingRequest)
  pendingRequestCounts : List (String × Nat)
deriving DecidableEq

/-- Message built by Go `sendStartRequest` and by the replay loop in
`onConnected` (ids and limits rendered in decimal by `fmt.Sprint`). -/
def startRequestMessage (id : Nat) (rType : String) (limit : Nat) : RPCMessage :=
  ⟨"START-REQUEST",
    [("Request-ID", toString id), ("Request-Type", rType),
     ("Request-Limit", toString limit)], ""⟩

/-- Message built by Go `sendEndRequest`. -/
def endRequestMessage (id : Nat) : RPCMessage :=
  ⟨"END-REQUEST", [("Request-ID", toString id)], ""⟩

/-- Message built by Go `sendGetRequestCount` and the count replay loop. -/
def getRequestCountMessage (rType : String) : RPCMessage :=
  ⟨"GET-REQUEST-COUNT", [("Request-Type", rType)], ""⟩

/-- Go `Send`: writes the frame when the socket is non-nil, else drops it. -/
def Connection.Send (conn : Connection) (msg : RPCMessage) : List RPCMessage :=
  if conn.socketOpen then [msg] else []

/-- Go `onConnected`: on a (re)established socket, write one START-REQUEST
per entry of the pending request table, then one GET-REQUEST-COUNT per type
in the pending count table, directly on the new socket; returns the frames
written and the `connected` flag the run loop checks.  Go map iteration
order is unspecified; the model fixes the list order. -/
def Connection.onConnected (conn : Connection) : List RPCMessage × Bool :=
  (conn.pendingRequests.map
      (fun p => startRequestMessage p.1 p.2.requestType p.2.limit) ++
    conn.pendingRequestCounts.map (fun p => getRequestCountMessage p.1),
   conn.connected)

/-- Go `Connection.StartRequest`: remember the pending entry, then send the
START-REQUEST message. -/
def Connection.StartRequest (conn : Connection) (id : Nat) (rType : String)
    (limit : Nat) : Connection × List RPCMessage :=
  let conn' :=
    { conn with pendingRequests := alistSet conn.pendingRequests id ⟨rType, limit⟩ }
  (conn', conn'.Send (startRequestMessage id rType limit))

/-- Go `Connection.EndRequest`: forget the pending entry, then send the
END-REQUEST message. -/
def Connection.EndRequest (conn : Connection) (id : Nat) :
    Connection × List RPCMessage :=
  let conn' := { conn with pendingRequests := alistErase conn.pendingRequests id }
  (conn', conn'.Send (endRequestMessage id))

/-- Go client `ReceiveRequestCount` (src/client/connection.go): reads the
type from Request-Type and the numeric count from Request-Count via
`strconv.ParseUint(..., 10, 32)`; a parse error reports PROTOCOL_ERROR to
the error handler and delivers nothing, otherwise the (type, count) pair is
delivered to the waiting callers through `cli.receiveRequestCount`. -/
def Connection.ReceiveRequestCount (msg : RPCMessage) : Option (String × Nat) :=
  let reqType := msg.GetParam "Request-Type"
  match parseUint32 (msg.GetParam "Request-Count") with
  | none => none
  | some reqCount => some (reqType, reqCount)

/-- Result triple of Go `Client.StartRequest`:
`(req *StartedRequest, limited bool, err error)`, with the token reduced to
the request id it carries. -/
structure StartResult where
  requestId : Option Nat
  limited : Bool
  err : Option String
deriving DecidableEq

/-- Go `Client.StartRequest` (src facade): `limit < 1` short-circuits to
limited, empty type is a local validation error; otherwise the pending
entry is registered and the start sent through the chosen pool connection
`conn` under the freshly allocated id `id`, and the channel select between
ack listener and timer is embedded as the explicit `outcome`.  The timeout
branch sends a best-effort END-REQUEST on the same connection and returns
the timeout error. -/
def Client.StartRequest (conn : Connection) (id : Nat) (requestType : String)
    (limit : Nat) (outcome : AckOutcome) :
    Connection × List RPCMessage × StartResult :=
  if limit < 1 then (conn, [], ⟨none, true, none⟩)
  else if requestType = "" then (conn, [], ⟨none, false, some "invalid request type"⟩)
  else
    let s := conn.StartRequest id requestType limit
    match outcome with
    | .acked true => (s.1, s.2, ⟨none, true, none⟩)
    | .acked false => (s.1, s.2, ⟨some id, false, none⟩)
    | .timedOut =>
      let e := s.1.EndRequest id
      (e.1, s.2 ++ e.2, ⟨none, false, some "timeout"⟩)

end GoClient

namespace JsClient

/-- JS websocket message (src/client-js/src/message.ts `WebsocketMessage`);
absent `args`/`body` are modelled as `[]` and `""`, matching what the
parser produces and what the serializer emits for them. -/
structure WebsocketMessage where
  type : String
  args : List (String × String)
  body : String
deriving DecidableEq

/-- ASCII lower-casing of a string, modelling JS `toLowerCase` on the ASCII
keys this protocol uses. -/
def lowerAscii (s : String) : String :=
  String.mk (s.data.map Char.toLower)

/-- JS `getMessageParam`: `msg.args[key.toLowerCase()] || ""`. -/
def getMessageParam (msg : WebsocketMessage) (key : String) : String :=
  lookupD msg.args (lowerAscii key) ""

/-- Modelled from JS `parseInt(s, 10)`: skip leading whitespace, read an
optional sign, then the maximal leading run of decimal digits; NaN (none)
when that run is empty. -/
def jsParseInt10 (s : String) : Option Int :=
  let l := s.data.dropWhile
    (fun c => c = ' ' ∨ c = '\t' ∨ c = '\n' ∨ c = '\r' ∨ c = '\x0b' ∨ c = '\x0c')
  let signAndRest : Int × List Char :=
    match l with
    | '-' :: r => (-1, r)
    | '+' :: r => (1, r)
    | r => (1, r)
  let digits := signAndRest.2.takeWhile Char.isDigit
  if digits = [] then none
  else some (signAndRest.1 *
    (digits.foldl (fun acc c => acc * 10 + (c.toNat - '0'.toNat)) 0 : Nat))

/-- JS client connection state (src/client-js/src/connection.ts
`PRCConnection`): the connection index used by the facade to find the
owning connection of a token, the `connected` flag, `socketOpen` modelling
`socket !== null`, and the two replay tables. -/
structure PRCConnection where
  index : Nat
  connected : Bool
  socketOpen : Bool
  pendingRequests : List (Nat × PendingRequest)
  pendingRequestCounts : List (String × Nat)
deriving DecidableEq

/-- START-REQUEST frame built by JS `startRequest` and the `onOpen` replay
(numbers rendered in decimal by string coercion). -/
def jsStartRequestMessage (id : Nat) (rType : String) (limit : Nat) :
    WebsocketMessage :=
  ⟨"START-REQUEST",
    [("Request-ID", toString id), ("Request-Type", rType),
     ("Request-Limit", toString limit)], ""⟩

/-- END-REQUEST frame built by JS `endRequest`. -/
def jsEndRequestMessage (id : Nat) : WebsocketMessage :=
  ⟨"END-REQUEST", [("Request-ID", toString id)], ""⟩

/-- GET-REQUEST-COUNT frame built by JS `getRequestCount` and `onOpen`. -/
def jsGetRequestCountMessage (rType : String) : WebsocketMessage :=
  ⟨"GET-REQUEST-COUNT", [("Request-Type", rType)], ""⟩

/-- JS `send`: emits the frame only when the socket exists and the
connection is open. -/
def PRCConnection.send (conn : PRCConnection) (msg : WebsocketMessage) :
    List WebsocketMessage :=
  if conn.socketOpen && conn.connected then [msg] else []

/-- JS `onOpen`: set `connected`, then send one START-REQUEST per pending
request (Map iteration is insertion order) and one GET-REQUEST-COUNT per
pending count type, each through `send`. -/
def PRCConnection.onOpen (conn : PRCConnection) :
    PRCConnection × List WebsocketMessage :=
  let conn' := { conn with connected := true }
  (conn',
   conn'.pendingRequests.flatMap
       (fun p => conn'.send (jsStartRequestMessage p.1 p.2.requestType p.2.limit)) ++
     conn'.pendingRequestCounts.flatMap
       (fun p => conn'.send (jsGetRequestCountMessage p.1)))

/-- JS `PRCConnection.startRequest`: remember the pending entry, then send
the START-REQUEST frame. -/
def PRCConnection.startRequest (conn : PRCConnection) (id : Nat)
    (rType : String) (limit : Nat) : PRCConnection × List WebsocketMessage :=
  let conn' :=
    { conn with pendingRequests := alistSet conn.pendingRequests id ⟨rType, limit⟩ }
  (conn', conn'.send (jsStartRequestMessage id rType limit))

/-- JS `PRCConnection.endRequest`: forget the pending entry, then send the
END-REQUEST frame. -/
def PRCConnection.endRequest (conn : PRCConnection) (id : Nat) :
    PRCConnection × List WebsocketMessage :=
  let conn' := { conn with pendingRequests := alistErase conn.pendingRequests id }
  (conn', conn'.send (jsEndRequestMessage id))

/-- JS client `receiveRequestCount` (src/client-js/src/connection.ts):
reads Request-Type for the type and parses the numeric count from the
Request-Type parameter as well (this is what the source does — the count is
not read from Request-Count); NaN reports PROTOCOL_ERROR and delivers
nothing, otherwise the (type, count) pair is delivered to the waiting
callers through `client.receiveRequestCount`. -/
def PRCConnection.receiveRequestCount (msg : WebsocketMessage) :
    Option (String × Int) :=
  let rType := getMessageParam msg "Request-Type"
  match jsParseInt10 (getMessageParam msg "Request-Type") with
  | none => none
  | some count => some (rType, count)

/-! ### Message codec — src/client-js/src/message.ts

The TS codec works on JS strings; the embedding works on the underlying
character lists.  `toLowerCase` / `toUpperCase` and the trim whitespace set
are modelled on the ASCII range this protocol uses. -/

/-- Whitespace recognised by the modelled JS `trim`. -/
def jsIsWS (c : Char) : Bool :=
  c = ' ' ∨ c = '\t' ∨ c = '\n' ∨ c = '\r' ∨ c = '\x0b' ∨ c = '\x0c'

/-- JS `trim`: drop whitespace from both ends. -/
def jsTrim (l : List Char) : List Char :=
  ((l.dropWhile jsIsWS).reverse.dropWhile jsIsWS).reverse

/-- JS `String.split` with a one-character separator and no limit:
`"".split(c) = [""]`, and a trailing separator yields a trailing `""`. -/
def wsSplit (c : Char) : List Char → List (List Char)
  | [] => [[]]
  | x :: xs =>
    if x = c then [] :: wsSplit c xs
    else
      match wsSplit c xs with
      | [] => [[x]]
      | h :: t => (x :: h) :: t

/-- JS `Array.join` with a one-character separator. -/
def wsJoin (c : Char) : List (List Char) → List Char
  | [] => []
  | x :: xs =>
    match xs with
    | [] => x
    | _ :: _ => x ++ c :: wsJoin c xs

/-- Parameter-block loop of `parseMessage`: each non-blank line is split at
the colons, the first piece trimmed and lower-cased is the key, the
remaining pieces re-joined with colons and trimmed are the value, and the
pair is assigned into the accumulated object (`args[key] = value`, which
overwrites in place or appends); the first blank line ends the block and
the remaining lines re-joined with newlines are the body. -/
def parseArgsLoop (args : List (List Char × List Char)) :
    List (List Char) → List (List Char × List Char) × List Char
  | [] => (args, [])
  | l :: rest =>
    if (jsTrim l).length = 0 then (args, wsJoin '\n' rest)
    else
      let argTxt := wsSplit ':' l
      let key := (jsTrim (argTxt.headD [])).map Char.toLower
      let value := jsTrim (wsJoin ':' argTxt.tail)
      parseArgsLoop (alistSet args key value) rest

/-- JS `parseMessage`: split into lines; the first line trimmed and
upper-cased is the type; the rest feed the parameter-block loop. -/
def parseMessage (s : String) : WebsocketMessage :=
  let lines := wsSplit '\n' s.data
  let type := String.mk ((jsTrim (lines.headD [])).map Char.toUpper)
  let res := parseArgsLoop [] lines.tail
  ⟨type, res.1.map (fun p => (String.mk p.1, String.mk p.2)), String.mk res.2⟩

/-- JS `makeMessage`: the type line, one `key: value` line per parameter in
map order, and — only when the body is non-empty (truthy) — a blank line
followed by the body. -/
def makeMessage (m : WebsocketMessage) : String :=
  String.mk (m.type.data ++
    (m.args.flatMap fun p => '\n' :: (p.1.data ++ ':' :: ' ' :: p.2.data)) ++
    (if m.body.data = [] then [] else '\n' :: '\n' :: m.body.data))

/-- Caller-visible token (src/client-js/src/started-request.ts
`StartedRequest`). -/
structure StartedRequest where
  id : Int
  limited : Bool
  connectionIndex : Option Nat
deriving DecidableEq

/-- Result of the JS `startRequest` promise: resolution with a token or
rejection with an error message. -/
inductive JsStartReturn where
  | ok (req : StartedRequest)
  | err (msg : String)
deriving DecidableEq

/-- JS `PRCClient.startRequest`: `limit < 1` resolves immediately with a
limited token of id −1; empty type rejects; otherwise the pending entry is
registered and the start sent through the chosen pool connection under the
fresh id, with the promise/timeout race embedded as the explicit outcome.
The rejection (timeout) branch sends a best-effort END-REQUEST on the same
connection and re-throws. -/
def PRCClient.startRequest (conn : PRCConnection) (id : Nat)
    (requestType : String) (limit : Nat) (outcome : AckOutcome) :
    PRCConnection × List WebsocketMessage × JsStartReturn :=
  if limit < 1 then (conn, [], .ok ⟨-1, true, none⟩)
  else if requestType = "" then (conn, [], .err "Invalid request type")
  else
    let s := conn.startRequest id requestType limit
    match outcome with
    | .acked limited => (s.1, s.2, .ok ⟨(id : Int), limited, some conn.index⟩)
    | .timedOut =>
      let e := s.1.endRequest id
      (e.1, s.2 ++ e.2, .err "Timeout")

end JsClient

/-! ## Theorems -/

theorem lookupD_alistSet {κ α : Type} [DecidableEq κ]
    (m : List (κ × α)) (k : κ) (v : α) (d : α) :
    lookupD (alistSet m k v) k d = v := by
  induction m with
  | nil => simp [alistSet, lookupD]
  | cons p rest ih =>
    obtain ⟨k', v'⟩ := p
    by_cases h : k' = k <;> simp [alistSet, lookupD, h, ih]

theorem lookupD_alistSet_ne {κ α : Type} [DecidableEq κ]
    (m : List (κ × α)) (k k' : κ) (v : α) (d : α) (hne : k ≠ k') :
    lookupD (alistSet m k v) k' d = lookupD m k' d := by
  induction m with
  | nil => simp [alistSet, lookupD, hne]
  | cons p rest ih =>
    obtain ⟨k₀, v₀⟩ := p
    by_cases h : k₀ = k
    · subst h
      simp [alistSet, lookupD, hne]
    · simp [alistSet, lookupD, h, ih]

theorem lookupD_alistErase_of_nodup {κ α : Type} [DecidableEq κ]
    (m : List (κ × α)) (k : κ) (d : α) (h : (m.map Prod.fst).Nodup) :
    lookupD (alistErase m k) k d = d := by
  induction m with
  | nil => simp [alistErase, lookupD]
  | cons p rest ih =>
    obtain ⟨k', v'⟩ := p
    simp only [List.map_cons, List.nodup_cons] at h
    by_cases hk : k' = k
    · subst hk
      simp only [alistErase, if_pos rfl]
      -- every remaining entry has a key different from k': lookup hits the default
      clear ih
      induction rest with
      | nil => simp [lookupD]
      | cons q tl ihtl =>
        obtain ⟨kq, vq⟩ := q
        have hkq : kq ≠ k' := by
          intro hEq
          exact h.1 (by simp [hEq])
        simp only [lookupD, if_neg (fun hc => hkq hc)]
        exact ihtl ⟨fun hm => h.1 (List.mem_cons_of_mem _ hm), h.2.of_cons⟩
    · simp only [alistErase, if_neg hk, lookupD, if_neg hk]
      exact ih h.2

theorem lookupD_alistErase_ne {κ α : Type} [DecidableEq κ]
    (m : List (κ × α)) (k k' : κ) (d : α) (hne : k ≠ k') :
    lookupD (alistErase m k) k' d = lookupD m k' d := by
  induction m with
  | nil => simp [alistErase, lookupD]
  | cons p rest ih =>
    obtain ⟨k₀, v₀⟩ := p
    by_cases h : k₀ = k
    · subst h
      simp [alistErase, lookupD, fun hc : k₀ = k' => hne hc]
    · simp [alistErase, lookupD, h, ih]

theorem nodup_keys_alistSet {κ α : Type} [DecidableEq κ]
    (m : List (κ × α)) (k : κ) (v : α) (h : (m.map Prod.fst).Nodup) :
    ((alistSet m k v).map Prod.fst).Nodup := by
  induction m with
  | nil => simp [alistSet]
  | cons p rest ih =>
    obtain ⟨k', v'⟩ := p
    simp only [List.map_cons, List.nodup_cons] at h
    by_cases hk : k' = k
    · subst hk
      simpa [alistSet, List.nodup_cons] using h
    · have hkeys : ((alistSet rest k v).map Prod.fst) = rest.map Prod.fst ++
          (if (rest.map Prod.fst).contains k then [] else [k]) ∨ True := Or.inr trivial
      clear hkeys
      simp only [alistSet, if_neg hk, List.map_cons, List.nodup_cons]
      refine ⟨?_, ih h.2⟩
      intro hmem
      -- membership in keys of alistSet implies old key or k
      have : ∀ (l : List (κ × α)), k' ∈ (alistSet l k v).map Prod.fst →
          k' ∈ l.map Prod.fst ∨ k' = k := by
        intro l
        induction l with
        | nil => simp [alistSet]
        | cons q tl ihq =>
          obtain ⟨kq, vq⟩ := q
          by_cases hq : kq = k
          · subst hq
            simp [alistSet]
            tauto
          · simp only [alistSet, if_neg hq, List.map_cons, List.mem_cons]
            intro hmm
            rcases hmm with h1 | h2
            · exact Or.inl (Or.inl h1)
            · rcases ihq h2 with ha | hb
              · exact Or.inl (Or.inr ha)
              · exact Or.inr hb
      rcases this rest hmem with ha | hb
      · exact h.1 ha
      · exact hk hb

theorem nodup_keys_alistErase {κ α : Type} [DecidableEq κ]
    (m : List (κ × α)) (k : κ) (h : (m.map Prod.fst).Nodup) :
    ((alistErase m k).map Prod.fst).Nodup := by
  induction m with
  | nil => simp [alistErase]
  | cons p rest ih =>
    obtain ⟨k', v'⟩ := p
    simp only [List.map_cons, List.nodup_cons] at h
    by_cases hk : k' = k
    · subst hk
      simpa [alistErase] using h.2
    · simp only [alistErase, if_neg hk, List.map_cons, List.nodup_cons]
      refine ⟨?_, ih h.2⟩
      intro hmem
      have : ∀ (l : List (κ × α)), k' ∈ (alistErase l k).map Prod.fst →
          k' ∈ l.map Prod.fst := by
        intro l
        induction l with
        | nil => simp [alistErase]
        | cons q tl ihq =>
          obtain ⟨kq, vq⟩ := q
          by_cases hq : kq = k
          · subst hq
            simp [alistErase]
            tauto
          · simp only [alistErase, if_neg hq, List.map_cons, List.mem_cons]
            intro hmm
            rcases hmm with h1 | h2
            · exact Or.inl h1
            · exact Or.inr (ihq h2)
      exact h.1 (this rest hmem)

theorem lookupD_eq_default_of_not_mem {κ α : Type} [DecidableEq κ]
    (m : List (κ × α)) (k : κ) (d : α) (h : k ∉ m.map Prod.fst) :
    lookupD m k d = d := by
  induction m with
  | nil => simp [lookupD]
  | cons p rest ih =>
    obtain ⟨k', v'⟩ := p
    simp only [List.map_cons, List.mem_cons] at h
    push_neg at h
    rw [lookupD, if_neg (fun hc => h.1 hc.symm)]
    exact ih h.2

theorem lookupD_mem {κ α : Type} [DecidableEq κ]
    (m : List (κ × α)) (k : κ) (d : α) (h : k ∈ m.map Prod.fst) :
    (k, lookupD m k d) ∈ m := by
  induction m with
  | nil => simp at h
  | cons p rest ih =>
    obtain ⟨k', v'⟩ := p
    by_cases hk : k' = k
    · subst hk
      simp [lookupD]
    · simp only [List.map_cons, List.mem_cons] at h
      have h2 : k ∈ rest.map Prod.fst := by
        rcases h with h1 | h2
        · exact absurd h1.symm hk
        · exact h2
      simp only [lookupD, if_neg hk]
      exact List.mem_cons_of_mem _ (ih h2)

theorem mem_alistSet {κ α : Type} [DecidableEq κ]
    (m : List (κ × α)) (k : κ) (v : α) (p : κ × α) (h : p ∈ alistSet m k v) :
    p ∈ m ∨ p = (k, v) := by
  induction m with
  | nil => simpa [alistSet] using h
  | cons q rest ih =>
    obtain ⟨k', v'⟩ := q
    by_cases hk : k' = k
    · subst hk
      simp only [alistSet, if_pos] at h
      rw [List.mem_cons] at h
      rcases h with h1 | h2
      · simp [h1]
      · exact Or.inl (List.mem_cons_of_mem _ h2)
    · simp only [alistSet, if_neg hk] at h
      rw [List.mem_cons] at h
      rcases h with h1 | h2
      · exact Or.inl (by simp [h1])
      · rcases ih h2 with ha | hb
        · exact Or.inl (List.mem_cons_of_mem _ ha)
        · exact Or.inr hb

theorem mem_alistErase {κ α : Type} [DecidableEq κ]
    (m : List (κ × α)) (k : κ) (p : κ × α) (h : p ∈ alistErase m k) :
    p ∈ m := by
  induction m with
  | nil => simp [alistErase] at h
  | cons q rest ih =>
    obtain ⟨k', v'⟩ := q
    by_cases hk : k' = k
    · subst hk
      simp only [alistErase, if_pos rfl] at h
      exact List.mem_cons_of_mem _ h
    · simp only [alistErase, if_neg hk, List.mem_cons] at h
      rcases h with h1 | h2
      · simp [h1]
      · exact List.mem_cons_of_mem _ (ih h2)

/-! ### Registry step lemmas -/

theorem GetRequestCount_EndRequest_self (rc : RequestController) (t : String)
    (h : (rc.counts.map Prod.fst).Nodup) :
    (rc.EndRequest t).GetRequestCount t = rc.GetRequestCount t - 1 := by
  simp only [RequestController.EndRequest, RequestController.GetRequestCount]
  by_cases h0 : lookupD rc.counts t 0 = 0
  · simp [h0]
  · by_cases h1 : lookupD rc.counts t 0 = 1
    · simp [h0, h1, lookupD_alistErase_of_nodup _ _ _ h]
    · simp [h0, h1, lookupD_alistSet]

theorem GetRequestCount_EndRequest_ne (rc : RequestController) (t t' : String)
    (hne : t ≠ t') :
    (rc.EndRequest t).GetRequestCount t' = rc.GetRequestCount t' := by
  simp only [RequestController.EndRequest, RequestController.GetRequestCount]
  by_cases h0 : lookupD rc.counts t 0 = 0
  · simp [h0]
  · by_cases h1 : lookupD rc.counts t 0 = 1
    · simp [h0, h1, lookupD_alistErase_ne _ _ _ _ hne]
    · simp [h0, h1, lookupD_alistSet_ne _ _ _ _ _ hne]

theorem nodup_counts_EndRequest (rc : RequestController) (t : String)
    (h : (rc.counts.map Prod.fst).Nodup) :
    ((rc.EndRequest t).counts.map Prod.fst).Nodup := by
  simp only [RequestController.EndRequest]
  by_cases h0 : lookupD rc.counts t 0 = 0
  · simpa [h0] using h
  · by_cases h1 : lookupD rc.counts t 0 = 1
    · simpa [h0, h1] using nodup_keys_alistErase rc.counts t h
    · simpa [h0, h1] using nodup_keys_alistSet rc.counts t _ h

/-- C2: for every registry state, type, and limit, `TryStartRequest`
increments the stored count for that type by one and admits when the
current count is strictly below the limit; otherwise it rejects and leaves
the whole registry unchanged. -/
theorem TryStartRequest_spec (rc : RequestController) (t : String) (limit : Nat) :
    (rc.GetRequestCount t < limit →
      (rc.TryStartRequest t limit).1 = true ∧
      ((rc.TryStartRequest t limit).2).GetRequestCount t = rc.GetRequestCount t + 1 ∧
      ∀ t', t' ≠ t →
        ((rc.TryStartRequest t limit).2).GetRequestCount t' = rc.GetRequestCount t') ∧
    (limit ≤ rc.GetRequestCount t →
      (rc.TryStartRequest t limit).1 = false ∧ (rc.TryStartRequest t limit).2 = rc) := by
  constructor
  · intro h
    have hlt : ¬ lookupD rc.counts t 0 ≥ limit := by
      simp only [RequestController.GetRequestCount] at h
      omega
    refine ⟨?_, ?_, ?_⟩
    · simp [RequestController.TryStartRequest, hlt]
    · simp [RequestController.TryStartRequest, hlt, RequestController.GetRequestCount,
        lookupD_alistSet]
    · intro t' hne
      simp [RequestController.TryStartRequest, hlt, RequestController.GetRequestCount,
        lookupD_alistSet_ne _ _ _ _ _ (fun hc => hne hc.symm)]
  · intro h
    have hge : lookupD rc.counts t 0 ≥ limit := by
      simp only [RequestController.GetRequestCount] at h
      omega
    constructor <;> simp [RequestController.TryStartRequest, hge]

/-- C2 witness: concrete instantiation of both branches. -/
theorem TryStartRequest_spec_witness :
    ((RequestController.mk [("t", 2)]).TryStartRequest "t" 3).1 = true ∧
    ((RequestController.mk [("t", 2)]).TryStartRequest "t" 2).2 =
      RequestController.mk [("t", 2)] :=
  ⟨((TryStartRequest_spec (RequestController.mk [("t", 2)]) "t" 3).1 (by decide)).1,
   ((TryStartRequest_spec (RequestController.mk [("t", 2)]) "t" 2).2 (by decide)).2⟩

/-- C7: `EndRequest` (Release) on a type whose count is zero or absent is a
no-op raising no error (the modelled function is total), any number `n` of
releases yields the truncated difference `count - n` — never a negative
count — and releases of one type never change another type's count. -/
theorem EndRequest_over_release_spec (rc : RequestController) (t : String)
    (h : (rc.counts.map Prod.fst).Nodup) :
    (rc.GetRequestCount t = 0 → rc.EndRequest t = rc) ∧
    (∀ n : Nat,
      ((fun r : RequestController => r.EndRequest t)^[n] rc).GetRequestCount t =
        rc.GetRequestCount t - n) ∧
    (∀ t', t' ≠ t → (rc.EndRequest t).GetRequestCount t' = rc.GetRequestCount t') := by
  refine ⟨?_, ?_, ?_⟩
  · intro h0
    simp only [RequestController.GetRequestCount] at h0
    simp [RequestController.EndRequest, h0]
  · intro n
    induction n generalizing rc with
    | zero => simp
    | succ n ih =>
      rw [Function.iterate_succ_apply]
      rw [ih (rc.EndRequest t) (nodup_counts_EndRequest rc t h)]
      rw [GetRequestCount_EndRequest_self rc t h]
      omega
  · intro t' hne
    exact GetRequestCount_EndRequest_ne rc t t' (fun hc => hne hc.symm)

/-- C7 witness: releasing an absent type is a no-op, and two releases of a
count of one stay at zero. -/
theorem EndRequest_over_release_spec_witness :
    ((RequestController.mk [("a", 1)]).EndRequest "b" = RequestController.mk [("a", 1)]) ∧
    ((fun r : RequestController => r.EndRequest "a")^[2]
        (RequestController.mk [("a", 1)])).GetRequestCount "a" = 1 - 2 :=
  ⟨(EndRequest_over_release_spec (RequestController.mk [("a", 1)]) "b"
      (by decide)).1 (by decide),
   (EndRequest_over_release_spec (RequestController.mk [("a", 1)]) "a"
      (by decide)).2.1 2⟩

/-- C10: in every registry state reachable from the empty registry, every
type physically present in the counts map has value at least one (an entry
reaching zero is deleted), and `GetRequestCount` returns zero exactly when
the type is absent from the map. -/
theorem registry_reachable_invariant (ops : List RegistryOp) :
    (∀ p ∈ (runRegistryOps ops).counts, 1 ≤ p.2) ∧
    (∀ t, (runRegistryOps ops).GetRequestCount t = 0 ↔
      t ∉ (runRegistryOps ops).counts.map Prod.fst) := by
  have hpos : ∀ p ∈ (runRegistryOps ops).counts, 1 ≤ p.2 := by
    have step : ∀ (rc : RequestController) (op : RegistryOp),
        (∀ p ∈ rc.counts, 1 ≤ p.2) → ∀ p ∈ (applyRegistryOp rc op).counts, 1 ≤ p.2 := by
      intro rc op hrc
      cases op with
      | tryStart t limit =>
        simp only [applyRegistryOp, RequestController.TryStartRequest]
        by_cases hge : lookupD rc.counts t 0 ≥ limit
        · simpa [hge] using hrc
        · simp only [hge, if_false]
          intro p hp
          rcases mem_alistSet _ _ _ _ hp with hm | he
          · exact hrc p hm
          · simp [he]
      | endReq t =>
        simp only [applyRegistryOp, RequestController.EndRequest]
        by_cases h0 : lookupD rc.counts t 0 = 0
        · simpa [h0] using hrc
        · by_cases h1 : lookupD rc.counts t 0 = 1
          · simp only [h0, if_false, h1, if_true]
            intro p hp
            exact hrc p (mem_alistErase _ _ _ hp)
          · simp only [h0, if_false, h1]
            intro p hp
            rcases mem_alistSet _ _ _ _ hp with hm | he
            · exact hrc p hm
            · have : 2 ≤ lookupD rc.counts t 0 := by omega
              simp [he]
              omega
      | getCount t => simpa [applyRegistryOp] using hrc
    have run : ∀ (l : List RegistryOp) (rc : RequestController),
        (∀ p ∈ rc.counts, 1 ≤ p.2) →
        ∀ p ∈ (l.foldl applyRegistryOp rc).counts, 1 ≤ p.2 := by
      intro l
      induction l with
      | nil => intro rc h; simpa using h
      | cons op rest ih =>
        intro rc h
        exact ih (applyRegistryOp rc op) (step rc op h)
    exact run ops CreateRequestController (by simp [CreateRequestController])
  refine ⟨hpos, ?_⟩
  intro t
  constructor
  · intro h0 hmem
    have := hpos (t, lookupD (runRegistryOps ops).counts t 0)
      (lookupD_mem _ _ _ hmem)
    simp only [RequestController.GetRequestCount] at h0
    omega
  · intro habs
    simp only [RequestController.GetRequestCount]
    exact lookupD_eq_default_of_not_mem _ _ _ habs

/-- C10 witness: after one admission the invariant instance at the admitted
type and a present entry. -/
theorem registry_reachable_invariant_witness :
    1 ≤ (("t", 1) : String × Nat).2 ∧
    ((runRegistryOps [RegistryOp.tryStart "t" 2]).GetRequestCount "t" = 0 ↔
      "t" ∉ (runRegistryOps [RegistryOp.tryStart "t" 2]).counts.map Prod.fst) :=
  ⟨(registry_reachable_invariant [RegistryOp.tryStart "t" 2]).1 ("t", 1) (by decide),
   (registry_reachable_invariant [RegistryOp.tryStart "t" 2]).2 "t"⟩

/-- C6: a START-REQUEST whose three parameters are valid but whose
Request-ID is already present in the open-request table replies
ERROR(REQUEST_ID_DUPLICATED) and changes nothing: the handler state (and so
the first recorded mapping) is kept, the registry is unmutated, and the
single reply is the error — no START-REQUEST-ACK is sent. -/
theorem receiveStartRequest_duplicate_id (ch : ConnectionHandler)
    (rc : RequestController) (msg : RPCMessage)
    (hid : (msg.GetParam "Request-ID").length ≠ 0)
    (htype : (msg.GetParam "Request-Type").length ≠ 0)
    (hlimit : (parseUint32 (msg.GetParam "Request-Limit")).isSome = true)
    (hdup : (lookupD ch.requests (msg.GetParam "Request-ID") "").length > 0) :
    ch.receiveStartRequest rc msg =
      (ch, rc, [SendErrorMessage "REQUEST_ID_DUPLICATED" duplicatedRequestIdText]) := by
  obtain ⟨L, hL⟩ := Option.isSome_iff_exists.mp hlimit
  have hdup' : ¬ (lookupD ch.requests (msg.GetParam "Request-ID") "").length = 0 := by
    omega
  simp [ConnectionHandler.receiveStartRequest, hid, htype, hL,
    ConnectionHandler.AddRequest, hdup, hdup']

/-- C6 witness: duplicate id "1" on a handler that already holds it. -/
theorem receiveStartRequest_duplicate_id_witness :
    (ConnectionHandler.mk [("1", "t")] false).receiveStartRequest ⟨[]⟩
        ⟨"START-REQUEST",
          [("Request-ID", "1"), ("Request-Type", "u"), ("Request-Limit", "5")], ""⟩ =
      (ConnectionHandler.mk [("1", "t")] false, ⟨[]⟩,
        [SendErrorMessage "REQUEST_ID_DUPLICATED" duplicatedRequestIdText]) :=
  receiveStartRequest_duplicate_id _ _ _ (by decide) (by decide) (by decide) (by decide)

/-- C9: a START-REQUEST that is rejected at the limit (acknowledged with
Request-Limit-Reached TRUE) still records its (id → type) entry and leaves
the registry unchanged; a subsequent END-REQUEST for that id removes the
entry and calls the registry release for the type, so the shared count
drops by one (truncated at zero) although this request never incremented
it. -/
theorem rejected_start_is_still_released (ch : ConnectionHandler)
    (rc : RequestController) (msg endMsg : RPCMessage)
    (id t lim : String) (L : Nat)
    (hmid : msg.GetParam "Request-ID" = id)
    (hmtype : msg.GetParam "Request-Type" = t)
    (hmlim : msg.GetParam "Request-Limit" = lim)
    (heid : endMsg.GetParam "Request-ID" = id)
    (hid : id.length ≠ 0) (ht : t.length ≠ 0)
    (hparse : parseUint32 lim = some L)
    (hnew : lookupD ch.requests id "" = "")
    (hfull : L ≤ rc.GetRequestCount t)
    (hreqs : (ch.requests.map Prod.fst).Nodup)
    (hrc : (rc.counts.map Prod.fst).Nodup) :
    (ch.receiveStartRequest rc msg).2.2 =
      [⟨"START-REQUEST-ACK",
        [("Request-ID", id), ("Request-Limit-Reached", "TRUE")], ""⟩] ∧
    lookupD (ch.receiveStartRequest rc msg).1.requests id "" = t ∧
    (ch.receiveStartRequest rc msg).2.1 = rc ∧
    lookupD ((ch.receiveStartRequest rc msg).1.receiveEndRequest rc endMsg).1.requests id "" = "" ∧
    ((ch.receiveStartRequest rc msg).1.receiveEndRequest rc endMsg).2.1 = rc.EndRequest t ∧
    ((ch.receiveStartRequest rc msg).1.receiveEndRequest rc endMsg).2.1.GetRequestCount t =
      rc.GetRequestCount t - 1 := by
  have hfresh : ¬ (lookupD ch.requests id "").length > 0 := by
    rw [hnew]
    simp
  have hstart : ch.receiveStartRequest rc msg =
      ({ ch with requests := alistSet ch.requests id t }, rc,
        [⟨"START-REQUEST-ACK",
          [("Request-ID", id), ("Request-Limit-Reached", "TRUE")], ""⟩]) := by
    have hrcfull : lookupD rc.counts t 0 ≥ L := hfull
    simp [ConnectionHandler.receiveStartRequest, hmid, hmtype, hmlim, hid, ht, hparse,
      ConnectionHandler.AddRequest, hfresh, RequestController.TryStartRequest, hrcfull]
  have hlook : lookupD (alistSet ch.requests id t) id "" = t := lookupD_alistSet _ _ _ _
  have hend : ({ ch with requests := alistSet ch.requests id t } :
      ConnectionHandler).receiveEndRequest rc endMsg =
      ({ ch with requests := alistErase (alistSet ch.requests id t) id },
        rc.EndRequest t, []) := by
    have htne : ¬ t.length = 0 := ht
    simp [ConnectionHandler.receiveEndRequest, heid, hid,
      ConnectionHandler.RemoveRequest, hlook, htne]
  rw [hstart]
  refine ⟨rfl, hlook, rfl, ?_, ?_, ?_⟩
  · rw [hend]
    exact lookupD_alistErase_of_nodup _ _ _ (nodup_keys_alistSet _ _ _ hreqs)
  · rw [hend]
  · rw [hend]
    exact GetRequestCount_EndRequest_self rc t hrc

/-- C9 witness: limit 1 already reached by another connection; the rejected
request records id "7", the later end releases the shared count to zero. -/
theorem rejected_start_is_still_released_witness :
    (((ConnectionHandler.mk [] false).receiveStartRequest
          (RequestController.mk [("t", 1)])
          (RPCMessage.mk "START-REQUEST"
            [("Request-ID", "7"), ("Request-Type", "t"), ("Request-Limit", "1")]
            "")).1.receiveEndRequest
        (RequestController.mk [("t", 1)])
        (RPCMessage.mk "END-REQUEST" [("Request-ID", "7")] "")).2.1.GetRequestCount "t" =
      (RequestController.mk [("t", 1)]).GetRequestCount "t" - 1 :=
  (rejected_start_is_still_released (ConnectionHandler.mk [] false)
    (RequestController.mk [("t", 1)])
    (RPCMessage.mk "START-REQUEST"
      [("Request-ID", "7"), ("Request-Type", "t"), ("Request-Limit", "1")] "")
    (RPCMessage.mk "END-REQUEST" [("Request-ID", "7")] "")
    "7" "t" "1" 1 (by decide) (by decide) (by decide) (by decide) (by decide) (by decide)
    (by decide) (by decide) (by decide) (by decide) (by decide)).2.2.2.2.2

/-- C1 (code divergence): `onClose` — the cleanup that `Run` defers on every
exit path of the run loop — returns the Counter Registry unchanged for
every handler state, including states with entries still in the open
request table; a connection closing while holding one admission of type
"t" leaves the count at 1 instead of releasing it. -/
theorem onClose_releases_nothing :
    (∀ (ch : ConnectionHandler) (rc : RequestController), (ch.onClose rc).2 = rc) ∧
    ((ConnectionHandler.mk [("1", "t")] false).onClose ⟨[("t", 1)]⟩).2.GetRequestCount "t" = 1 :=
  ⟨fun _ _ => rfl, by decide⟩

theorem alistErase_alistSet_of_not_mem {κ α : Type} [DecidableEq κ]
    (m : List (κ × α)) (k : κ) (v : α) (h : k ∉ m.map Prod.fst) :
    alistErase (alistSet m k v) k = m := by
  induction m with
  | nil => simp [alistSet, alistErase]
  | cons p rest ih =>
    obtain ⟨k', v'⟩ := p
    simp only [List.map_cons, List.mem_cons] at h
    push_neg at h
    have hk : k' ≠ k := fun hc => h.1 hc.symm
    rw [alistSet]
    rw [if_neg hk]
    rw [alistErase]
    rw [if_neg hk]
    rw [ih h.2]

/-- C3 (code divergence): for the REQUEST-COUNT reply carrying
Request-Type "t1" and Request-Count "7", the Go client parses the count
from Request-Count and delivers ("t1", 7), while the JS client parses the
count out of the Request-Type parameter: on "t1" the parse is NaN and
nothing is delivered, and on a numeric type label "123" it delivers the
label 123 as the count instead of the actual count 7. -/
theorem js_count_reply_parses_wrong_field :
    GoClient.Connection.ReceiveRequestCount
        ⟨"REQUEST-COUNT", [("Request-Type", "t1"), ("Request-Count", "7")], ""⟩ =
      some ("t1", 7) ∧
    JsClient.PRCConnection.receiveRequestCount
        ⟨"REQUEST-COUNT", [("request-type", "t1"), ("request-count", "7")], ""⟩ =
      none ∧
    JsClient.PRCConnection.receiveRequestCount
        ⟨"REQUEST-COUNT", [("request-type", "123"), ("request-count", "7")], ""⟩ =
      some ("123", 123) := by
  refine ⟨?_, ?_, ?_⟩ <;> decide

/-- C8: a start call whose ack listener loses the race to the timeout — for
both the Go facade `Client.StartRequest` and the JS facade
`PRCClient.startRequest` — returns a timeout error, sends the START-REQUEST
followed by a best-effort END-REQUEST for the allocated id on the same pool
connection that carried the start, and removes that id's pending-start
entry, leaving the connection state exactly as before the call. -/
theorem start_timeout_sends_end
    (conn : GoClient.Connection) (jconn : JsClient.PRCConnection)
    (id jid : Nat) (rType jType : String) (limit jLimit : Nat)
    (hlim : 1 ≤ limit) (htype : rType ≠ "") (hsock : conn.socketOpen = true)
    (hnew : id ∉ conn.pendingRequests.map Prod.fst)
    (hjlim : 1 ≤ jLimit) (hjtype : jType ≠ "") (hjsock : jconn.socketOpen = true)
    (hjconn : jconn.connected = true)
    (hjnew : jid ∉ jconn.pendingRequests.map Prod.fst) :
    GoClient.Client.StartRequest conn id rType limit AckOutcome.timedOut =
      (conn,
        [GoClient.startRequestMessage id rType limit, GoClient.endRequestMessage id],
        ⟨none, false, some "timeout"⟩) ∧
    JsClient.PRCClient.startRequest jconn jid jType jLimit AckOutcome.timedOut =
      (jconn,
        [JsClient.jsStartRequestMessage jid jType jLimit, JsClient.jsEndRequestMessage jid],
        JsClient.JsStartReturn.err "Timeout") := by
  constructor
  · have hl : ¬ limit < 1 := by omega
    obtain ⟨c, so, pr, prc⟩ := conn
    simp only [GoClient.Connection.socketOpen] at hsock
    simp only [GoClient.Connection.pendingRequests] at hnew
    subst hsock
    simp [GoClient.Client.StartRequest, hl, htype, GoClient.Connection.StartRequest,
      GoClient.Connection.EndRequest, GoClient.Connection.Send,
      alistErase_alistSet_of_not_mem _ _ _ hnew]
  · have hl : ¬ jLimit < 1 := by omega
    obtain ⟨ix, c, so, pr, prc⟩ := jconn
    simp only [JsClient.PRCConnection.socketOpen] at hjsock
    simp only [JsClient.PRCConnection.connected] at hjconn
    simp only [JsClient.PRCConnection.pendingRequests] at hjnew
    subst hjsock
    subst hjconn
    simp [JsClient.PRCClient.startRequest, hl, hjtype, JsClient.PRCConnection.startRequest,
      JsClient.PRCConnection.endRequest, JsClient.PRCConnection.send,
      alistErase_alistSet_of_not_mem _ _ _ hjnew]

/-- C8 witness: a fresh id 5 on an open, empty connection of each client. -/
theorem start_timeout_sends_end_witness :
    GoClient.Client.StartRequest ⟨true, true, [], []⟩ 5 "t" 1 AckOutcome.timedOut =
      (⟨true, true, [], []⟩,
        [GoClient.startRequestMessage 5 "t" 1, GoClient.endRequestMessage 5],
        ⟨none, false, some "timeout"⟩) :=
  (start_timeout_sends_end ⟨true, true, [], []⟩ ⟨0, true, true, [], []⟩ 5 5 "t" "t" 1 1
    (by decide) (by decide) (by decide) (by decide) (by decide) (by decide) (by decide)
    (by decide) (by decide)).1

theorem flatMap_singleton_eq_map {α β : Type} (l : List α) (f : α → β) :
    (l.flatMap fun a => [f a]) = l.map f := by
  induction l with
  | nil => rfl
  | cons a tl ih => simp [List.flatMap_cons, ih]

theorem replay_out_counts {α γ : Type} [DecidableEq γ]
    (prs : List α) (prc : List (String × Nat)) (f : α → γ) (g : String → γ)
    (hfnd : (prs.map f).Nodup)
    (hcnt : (prc.map Prod.fst).Nodup)
    (hginj : Function.Injective g)
    (hfg : ∀ a t, f a ≠ g t)
    (hpos : ∀ p ∈ prc, 0 < p.2) :
    (∀ a ∈ prs, ((prs.map f ++ prc.map fun p => g p.1).count (f a)) = 1) ∧
    (∀ t, 0 < lookupD prc t 0 →
      ((prs.map f ++ prc.map fun p => g p.1).count (g t)) = 1) ∧
    (∀ t, lookupD prc t 0 = 0 →
      g t ∉ (prs.map f ++ prc.map fun p => g p.1)) := by
  have hBmap : (prc.map fun p => g p.1) = (prc.map Prod.fst).map g := by
    rw [List.map_map]
    rfl
  have hBnd : (prc.map fun p => g p.1).Nodup := by
    rw [hBmap]
    exact hcnt.map hginj
  refine ⟨?_, ?_, ?_⟩
  · intro a ha
    rw [List.count_append]
    have h1 : (prs.map f).count (f a) = 1 :=
      List.count_eq_one_of_mem hfnd (List.mem_map_of_mem f ha)
    have h2 : (prc.map fun p => g p.1).count (f a) = 0 := by
      apply List.count_eq_zero_of_not_mem
      intro hmem
      rw [List.mem_map] at hmem
      obtain ⟨p, _, hEq⟩ := hmem
      exact hfg a p.1 hEq.symm
    omega
  · intro t ht
    have hk : t ∈ prc.map Prod.fst := by
      by_contra habs
      rw [lookupD_eq_default_of_not_mem _ _ _ habs] at ht
      omega
    rw [List.count_append]
    have h1 : (prs.map f).count (g t) = 0 := by
      apply List.count_eq_zero_of_not_mem
      intro hmem
      rw [List.mem_map] at hmem
      obtain ⟨a, _, hEq⟩ := hmem
      exact hfg a t hEq
    have h2 : (prc.map fun p => g p.1).count (g t) = 1 := by
      have hmem : (t, lookupD prc t 0) ∈ prc := lookupD_mem _ _ _ hk
      have hgt : g t = (fun p : String × Nat => g p.1) (t, lookupD prc t 0) := rfl
      rw [hgt]
      exact List.count_eq_one_of_mem hBnd (List.mem_map_of_mem _ hmem)
    omega
  · intro t ht hmem
    have hk : t ∉ prc.map Prod.fst := by
      intro hkmem
      have hp := hpos (t, lookupD prc t 0) (lookupD_mem _ _ _ hkmem)
      simp only at hp
      omega
    rw [List.mem_append] at hmem
    rcases hmem with hA | hB
    · rw [List.mem_map] at hA
      obtain ⟨a, _, hEq⟩ := hA
      exact hfg a t hEq
    · rw [List.mem_map] at hB
      obtain ⟨p, hp, hEq⟩ := hB
      have hpt : p.1 = t := hginj hEq
      exact hk (hpt ▸ List.mem_map_of_mem Prod.fst hp)

/-- C4: on (re)establishing its socket, each client connection — Go
`onConnected` and JS `onOpen` — sends exactly one START-REQUEST carrying
the remembered id, type, and limit for every entry of its pending-requests
table, exactly one GET-REQUEST-COUNT for every request type whose
outstanding-query count is positive, and none for a type with no
outstanding query.  The tables are maps (key lists without duplicates,
their decimal id renderings likewise), query reference counts of present
types are positive, and the JS socket is live inside its open event. -/
theorem reconnect_replays_pending
    (conn : GoClient.Connection) (jconn : JsClient.PRCConnection)
    (hids : (conn.pendingRequests.map fun p => toString p.1).Nodup)
    (hcnt : (conn.pendingRequestCounts.map Prod.fst).Nodup)
    (hpos : ∀ p ∈ conn.pendingRequestCounts, 0 < p.2)
    (hjids : (jconn.pendingRequests.map fun p => toString p.1).Nodup)
    (hjcnt : (jconn.pendingRequestCounts.map Prod.fst).Nodup)
    (hjpos : ∀ p ∈ jconn.pendingRequestCounts, 0 < p.2)
    (hjsock : jconn.socketOpen = true) :
    (∀ p ∈ conn.pendingRequests,
      (conn.onConnected).1.count
        (GoClient.startRequestMessage p.1 p.2.requestType p.2.limit) = 1) ∧
    (∀ t, 0 < lookupD conn.pendingRequestCounts t 0 →
      (conn.onConnected).1.count (GoClient.getRequestCountMessage t) = 1) ∧
    (∀ t, lookupD conn.pendingRequestCounts t 0 = 0 →
      GoClient.getRequestCountMessage t ∉ (conn.onConnected).1) ∧
    (∀ p ∈ jconn.pendingRequests,
      (jconn.onOpen).2.count
        (JsClient.jsStartRequestMessage p.1 p.2.requestType p.2.limit) = 1) ∧
    (∀ t, 0 < lookupD jconn.pendingRequestCounts t 0 →
      (jconn.onOpen).2.count (JsClient.jsGetRequestCountMessage t) = 1) ∧
    (∀ t, lookupD jconn.pendingRequestCounts t 0 = 0 →
      JsClient.jsGetRequestCountMessage t ∉ (jconn.onOpen).2) := by
  have hfnd : ((conn.pendingRequests.map
      fun p => GoClient.startRequestMessage p.1 p.2.requestType p.2.limit)).Nodup := by
    apply List.Nodup.of_map (fun m : RPCMessage => m.GetParam "Request-ID")
    rw [List.map_map]
    have hcomp : ((fun m : RPCMessage => m.GetParam "Request-ID") ∘
        fun p : Nat × PendingRequest =>
          GoClient.startRequestMessage p.1 p.2.requestType p.2.limit) =
        fun p : Nat × PendingRequest => toString p.1 := by
      funext p
      rfl
    rw [hcomp]
    exact hids
  have hginj : Function.Injective GoClient.getRequestCountMessage := by
    intro a b h
    exact congrArg (fun m : RPCMessage => m.GetParam "Request-Type") h
  have hfg : ∀ (p : Nat × PendingRequest) (t : String),
      GoClient.startRequestMessage p.1 p.2.requestType p.2.limit ≠
        GoClient.getRequestCountMessage t := by
    intro p t h
    have hm := congrArg RPCMessage.Method h
    simp [GoClient.startRequestMessage, GoClient.getRequestCountMessage] at hm
  have hgo := replay_out_counts conn.pendingRequests conn.pendingRequestCounts
    (fun p => GoClient.startRequestMessage p.1 p.2.requestType p.2.limit)
    GoClient.getRequestCountMessage hfnd hcnt hginj hfg hpos
  have hgoeq : (conn.onConnected).1 =
      (conn.pendingRequests.map
        fun p => GoClient.startRequestMessage p.1 p.2.requestType p.2.limit) ++
      (conn.pendingRequestCounts.map fun p => GoClient.getRequestCountMessage p.1) := rfl
  have hjfnd : ((jconn.pendingRequests.map
      fun p => JsClient.jsStartRequestMessage p.1 p.2.requestType p.2.limit)).Nodup := by
    apply List.Nodup.of_map (fun m : JsClient.WebsocketMessage =>
      lookupD m.args "Request-ID" "")
    rw [List.map_map]
    have hcomp : ((fun m : JsClient.WebsocketMessage =>
        lookupD m.args "Request-ID" "") ∘
        fun p : Nat × PendingRequest =>
          JsClient.jsStartRequestMessage p.1 p.2.requestType p.2.limit) =
        fun p : Nat × PendingRequest => toString p.1 := by
      funext p
      rfl
    rw [hcomp]
    exact hjids
  have hjginj : Function.Injective JsClient.jsGetRequestCountMessage := by
    intro a b h
    exact congrArg (fun m : JsClient.WebsocketMessage =>
      lookupD m.args "Request-Type" "") h
  have hjfg : ∀ (p : Nat × PendingRequest) (t : String),
      JsClient.jsStartRequestMessage p.1 p.2.requestType p.2.limit ≠
        JsClient.jsGetRequestCountMessage t := by
    intro p t h
    have hm := congrArg JsClient.WebsocketMessage.type h
    simp [JsClient.jsStartRequestMessage, JsClient.jsGetRequestCountMessage] at hm
  have hjs := replay_out_counts jconn.pendingRequests jconn.pendingRequestCounts
    (fun p => JsClient.jsStartRequestMessage p.1 p.2.requestType p.2.limit)
    JsClient.jsGetRequestCountMessage hjfnd hjcnt hjginj hjfg hjpos
  have hjseq : (jconn.onOpen).2 =
      (jconn.pendingRequests.map
        fun p => JsClient.jsStartRequestMessage p.1 p.2.requestType p.2.limit) ++
      (jconn.pendingRequestCounts.map fun p => JsClient.jsGetRequestCountMessage p.1) := by
    simp [JsClient.PRCConnection.onOpen, JsClient.PRCConnection.send, hjsock,
      flatMap_singleton_eq_map]
  rw [hgoeq, hjseq]
  exact ⟨hgo.1, hgo.2.1, hgo.2.2, hjs.1, hjs.2.1, hjs.2.2⟩

/-- C4 witness: one pending request and one outstanding count query on each
client. -/
theorem reconnect_replays_pending_witness :
    ((GoClient.Connection.mk true true [(1, ⟨"t", 2⟩)] [("q", 1)]).onConnected).1.count
      (GoClient.startRequestMessage 1 "t" 2) = 1 ∧
    ((JsClient.PRCConnection.mk 0 false true [(4, ⟨"u", 3⟩)] [("r", 2)]).onOpen).2.count
      (JsClient.jsGetRequestCountMessage "r") = 1 :=
  ⟨(reconnect_replays_pending (GoClient.Connection.mk true true [(1, ⟨"t", 2⟩)] [("q", 1)])
      (JsClient.PRCConnection.mk 0 false true [(4, ⟨"u", 3⟩)] [("r", 2)])
      (by decide) (by decide) (by decide) (by decide) (by decide) (by decide)
      (by decide)).1 (1, ⟨"t", 2⟩) (by decide),
   (reconnect_replays_pending (GoClient.Connection.mk true true [(1, ⟨"t", 2⟩)] [("q", 1)])
      (JsClient.PRCConnection.mk 0 false true [(4, ⟨"u", 3⟩)] [("r", 2)])
      (by decide) (by decide) (by decide) (by decide) (by decide) (by decide)
      (by decide)).2.2.2.2.1 "r" (by decide)⟩

namespace JsClient

theorem wsSplit_ne_nil (c : Char) (l : List Char) : wsSplit c l ≠ [] := by
  cases l with
  | nil => simp [wsSplit]
  | cons x xs =>
    by_cases h : x = c
    · simp [wsSplit, h]
    · simp only [wsSplit, if_neg h]
      cases hs : wsSplit c xs <;> simp

theorem wsSplit_no_sep (c : Char) (l : List Char) (h : c ∉ l) :
    wsSplit c l = [l] := by
  induction l with
  | nil => rfl
  | cons x xs ih =>
    simp only [List.mem_cons] at h
    push_neg at h
    rw [wsSplit, if_neg (fun hc => h.1 hc.symm)]
    rw [ih h.2]

theorem wsSplit_append_sep (c : Char) (a b : List Char) (h : c ∉ a) :
    wsSplit c (a ++ c :: b) = a :: wsSplit c b := by
  induction a with
  | nil => simp [wsSplit]
  | cons x xs ih =>
    simp only [List.mem_cons] at h
    push_neg at h
    rw [List.cons_append, wsSplit, if_neg (fun hc => h.1 hc.symm), ih h.2]

theorem wsJoin_wsSplit (c : Char) (l : List Char) :
    wsJoin c (wsSplit c l) = l := by
  induction l with
  | nil => rfl
  | cons x xs ih =>
    by_cases h : x = c
    · subst h
      rw [wsSplit, if_pos rfl]
      cases hs : wsSplit x xs with
      | nil => exact absurd hs (wsSplit_ne_nil x xs)
      | cons y ys =>
        rw [hs] at ih
        exact congrArg (List.cons x) ih
    · rw [wsSplit, if_neg h]
      cases hs : wsSplit c xs with
      | nil => exact absurd hs (wsSplit_ne_nil c xs)
      | cons y ys =>
        rw [hs] at ih
        cases ys with
        | nil => exact congrArg (List.cons x) ih
        | cons z zs => exact congrArg (List.cons x) ih

theorem mem_dropWhile_of_neg {p : Char → Bool} {l : List Char} {x : Char}
    (hx : x ∈ l) (hp : p x = false) : x ∈ l.dropWhile p := by
  induction l with
  | nil => simp at hx
  | cons y ys ih =>
    rw [List.mem_cons] at hx
    by_cases hy : p y
    · rw [List.dropWhile_cons_of_pos hy]
      rcases hx with h1 | h2
      · subst h1
        rw [hy] at hp
        simp at hp
      · exact ih h2
    · rw [List.dropWhile_cons_of_neg hy]
      rcases hx with h1 | h2
      · simp [h1]
      · exact List.mem_cons_of_mem _ h2

theorem jsTrim_ne_nil {l : List Char} {x : Char} (hx : x ∈ l)
    (hp : jsIsWS x = false) : jsTrim l ≠ [] := by
  intro hnil
  rw [jsTrim, List.reverse_eq_nil_iff] at hnil
  have h1 : x ∈ l.dropWhile jsIsWS := mem_dropWhile_of_neg hx hp
  have h2 : x ∈ (l.dropWhile jsIsWS).reverse := List.mem_reverse.mpr h1
  have h3 : x ∈ (l.dropWhile jsIsWS).reverse.dropWhile jsIsWS :=
    mem_dropWhile_of_neg h2 hp
  rw [hnil] at h3
  simp at h3

theorem jsTrim_cons_ws (c : Char) (l : List Char) (h : jsIsWS c = true) :
    jsTrim (c :: l) = jsTrim l := by
  rw [jsTrim, jsTrim, List.dropWhile_cons_of_pos h]

theorem alistSet_append_of_not_mem {κ α : Type} [DecidableEq κ]
    (m : List (κ × α)) (k : κ) (v : α) (h : k ∉ m.map Prod.fst) :
    alistSet m k v = m ++ [(k, v)] := by
  induction m with
  | nil => rfl
  | cons p rest ih =>
    obtain ⟨k', v'⟩ := p
    simp only [List.map_cons, List.mem_cons] at h
    push_neg at h
    rw [alistSet, if_neg (fun hc => h.1 hc.symm), ih h.2, List.cons_append]

theorem wsSplit_line_block (ls : List (List Char)) (s : List Char)
    (r : List (List Char))
    (hs : ∀ t : List Char, '\n' ∉ t → wsSplit '\n' (t ++ s) = t :: r) :
    ∀ t : List Char, '\n' ∉ t → (∀ l ∈ ls, '\n' ∉ l) →
      wsSplit '\n' (t ++ ls.flatMap (fun l => '\n' :: l) ++ s) = t :: (ls ++ r) := by
  induction ls with
  | nil =>
    intro t ht _
    simpa using hs t ht
  | cons l tl ih =>
    intro t ht hl
    have hline : t ++ (l :: tl).flatMap (fun x => '\n' :: x) ++ s =
        t ++ '\n' :: (l ++ tl.flatMap (fun x => '\n' :: x) ++ s) := by
      simp [List.flatMap_cons]
    rw [hline, wsSplit_append_sep _ _ _ ht]
    rw [ih l (hl l (by simp)) (fun x hx => hl x (by simp [hx]))]
    simp

theorem parseArgsLoop_block (args : List (List Char × List Char)) :
    ∀ (acc : List (List Char × List Char)) (rest : List (List Char)),
      (∀ p ∈ args, ':' ∉ p.1 ∧ jsTrim p.1 = p.1 ∧ jsTrim p.2 = p.2) →
      ((acc.map Prod.fst) ++ args.map (fun p => p.1.map Char.toLower)).Nodup →
      parseArgsLoop acc (args.map (fun p => p.1 ++ ':' :: ' ' :: p.2) ++ rest) =
        parseArgsLoop (acc ++ args.map (fun p => (p.1.map Char.toLower, p.2))) rest := by
  induction args with
  | nil =>
    intro acc rest _ _
    simp
  | cons p ps ih =>
    intro acc rest hcl hnd
    obtain ⟨k, v⟩ := p
    have hk : ':' ∉ k := (hcl (k, v) (by simp)).1
    have hkt : jsTrim k = k := (hcl (k, v) (by simp)).2.1
    have hvt : jsTrim v = v := (hcl (k, v) (by simp)).2.2
    have hcolon : (':' : Char) ∈ k ++ ':' :: ' ' :: v := by simp
    have hnz : ¬ (jsTrim (k ++ ':' :: ' ' :: v)).length = 0 := by
      rw [List.length_eq_zero]
      exact jsTrim_ne_nil hcolon (by decide)
    have hsplit : wsSplit ':' (k ++ ':' :: ' ' :: v) = k :: wsSplit ':' (' ' :: v) :=
      wsSplit_append_sep ':' k (' ' :: v) hk
    have hval : jsTrim (wsJoin ':' (wsSplit ':' (' ' :: v))) = v := by
      rw [wsJoin_wsSplit, jsTrim_cons_ws _ _ (by decide), hvt]
    have hfresh : (k.map Char.toLower) ∉ acc.map Prod.fst := by
      simp only [List.map_cons] at hnd
      rcases (List.nodup_append.mp hnd) with ⟨_, _, hdisj⟩
      intro hmem
      exact hdisj hmem (by simp)
    rw [List.map_cons, List.cons_append, parseArgsLoop]
    rw [if_neg hnz]
    simp only [hsplit, List.headD_cons, List.tail_cons]
    rw [hkt, hval]
    rw [alistSet_append_of_not_mem _ _ _ hfresh]
    rw [ih (acc ++ [(k.map Char.toLower, v)]) rest
      (fun q hq => hcl q (by simp [hq]))
      (by
        simp only [List.map_append, List.map_cons, List.map_nil, List.append_assoc,
          List.singleton_append]
        simpa [List.map_cons] using hnd)]
    simp

end JsClient

/-- C5 (counterexample to the claim as stated): the message with type "A",
the single parameter ("k", "v ") — a value with a trailing space — and no
body is representable (non-empty type line, a parameter map, optional
body), yet the parse of its serialization trims the value to "v", so the
parameter set is not reproduced even up to the allowed lower-casing of
names. -/
theorem parse_make_not_inverse :
    (JsClient.parseMessage (JsClient.makeMessage ⟨"A", [("k", "v ")], ""⟩)).args ≠
      [(("k" : String), ("v " : String))] := by
  decide

/-- C5 (amended): for every message whose type line is non-empty,
newline-free, and trim-stable, whose parameter names are newline-free,
colon-free, and trim-stable, whose parameter values are newline-free and
trim-stable, and whose lower-cased parameter names are pairwise distinct,
parsing the serialization reproduces the type canonicalized upper-case, the
parameter list with names lower-cased and values intact, and the body. -/
theorem parse_make_roundtrip (m : JsClient.WebsocketMessage)
    (_htype0 : m.type.data ≠ [])
    (htype1 : '\n' ∉ m.type.data)
    (htype2 : JsClient.jsTrim m.type.data = m.type.data)
    (hkeys : ∀ p ∈ m.args, '\n' ∉ p.1.data ∧ ':' ∉ p.1.data ∧
      JsClient.jsTrim p.1.data = p.1.data)
    (hvals : ∀ p ∈ m.args, '\n' ∉ p.2.data ∧ JsClient.jsTrim p.2.data = p.2.data)
    (hnd : (m.args.map (fun p => p.1.data.map Char.toLower)).Nodup) :
    JsClient.parseMessage (JsClient.makeMessage m) =
      ⟨String.mk (m.type.data.map Char.toUpper),
       m.args.map (fun p => (String.mk (p.1.data.map Char.toLower), p.2)),
       m.body⟩ := by
  have hflat : (m.args.flatMap fun p => '\n' :: (p.1.data ++ ':' :: ' ' :: p.2.data)) =
      (m.args.map fun p => p.1.data ++ ':' :: ' ' :: p.2.data).flatMap
        (fun l => '\n' :: l) := by
    rw [List.flatMap_map]
  have hlinefree : ∀ l ∈ (m.args.map fun p => p.1.data ++ ':' :: ' ' :: p.2.data),
      '\n' ∉ l := by
    intro l hl
    rw [List.mem_map] at hl
    obtain ⟨p, hp, hEq⟩ := hl
    subst hEq
    intro hmem
    rw [List.mem_append] at hmem
    rcases hmem with h1 | h2
    · exact (hkeys p hp).1 h1
    · rw [List.mem_cons] at h2
      rcases h2 with h3 | h4
      · exact absurd h3 (by decide)
      · rw [List.mem_cons] at h4
        rcases h4 with h5 | h6
        · exact absurd h5 (by decide)
        · exact (hvals p hp).1 h6
  have hargsC : ∀ q ∈ (m.args.map fun p => (p.1.data, p.2.data)),
      ':' ∉ q.1 ∧ JsClient.jsTrim q.1 = q.1 ∧ JsClient.jsTrim q.2 = q.2 := by
    intro q hq
    rw [List.mem_map] at hq
    obtain ⟨p, hp, hEq⟩ := hq
    subst hEq
    exact ⟨(hkeys p hp).2.1, (hkeys p hp).2.2, (hvals p hp).2⟩
  have hndC : (([] : List (List Char × List Char)).map Prod.fst ++
      (m.args.map fun p => (p.1.data, p.2.data)).map
        (fun q => q.1.map Char.toLower)).Nodup := by
    simpa [List.map_map, Function.comp] using hnd
  have hlines : (m.args.map fun p => (p.1.data, p.2.data)).map
      (fun q : List Char × List Char => q.1 ++ ':' :: ' ' :: q.2) =
      m.args.map fun p => p.1.data ++ ':' :: ' ' :: p.2.data := by
    rw [List.map_map]
    rfl
  by_cases hbody : m.body.data = []
  · have hsplit := JsClient.wsSplit_line_block
      (m.args.map fun p => p.1.data ++ ':' :: ' ' :: p.2.data) [] []
      (fun t ht => by simpa using JsClient.wsSplit_no_sep '\n' t ht)
      m.type.data htype1 hlinefree
    have hblock := JsClient.parseArgsLoop_block
      (m.args.map fun p => (p.1.data, p.2.data)) [] [] hargsC hndC
    rw [hlines] at hblock
    simp only [JsClient.parseMessage, JsClient.makeMessage, hflat]
    rw [if_pos hbody]
    simp only [List.append_nil] at hsplit hblock ⊢
    rw [hsplit]
    simp only [List.headD_cons, List.tail_cons]
    rw [hblock]
    simp only [List.nil_append, JsClient.parseArgsLoop]
    rw [htype2]
    simp only [List.map_map]
    have hb : String.mk ([] : List Char) = m.body := congrArg String.mk hbody.symm
    rw [hb]
    rfl
  · have hs : ∀ t : List Char, '\n' ∉ t →
        JsClient.wsSplit '\n' (t ++ '\n' :: '\n' :: m.body.data) =
          t :: [] :: JsClient.wsSplit '\n' m.body.data := by
      intro t ht
      rw [JsClient.wsSplit_append_sep _ _ _ ht]
      rw [JsClient.wsSplit, if_pos rfl]
    have hsplit := JsClient.wsSplit_line_block
      (m.args.map fun p => p.1.data ++ ':' :: ' ' :: p.2.data)
      ('\n' :: '\n' :: m.body.data) ([] :: JsClient.wsSplit '\n' m.body.data) hs
      m.type.data htype1 hlinefree
    have hblock := JsClient.parseArgsLoop_block
      (m.args.map fun p => (p.1.data, p.2.data)) []
      ([] :: JsClient.wsSplit '\n' m.body.data) hargsC hndC
    rw [hlines] at hblock
    simp only [JsClient.parseMessage, JsClient.makeMessage, hflat]
    rw [if_neg hbody]
    rw [hsplit]
    simp only [List.headD_cons, List.tail_cons]
    rw [hblock]
    simp only [List.nil_append, JsClient.parseArgsLoop]
    rw [if_pos (by rfl)]
    rw [htype2, JsClient.wsJoin_wsSplit]
    simp only [List.map_map]
    rfl

/-- C5 witness for the amended round trip: a two-parameter message with a
mixed-case type and name, a colon inside a value, and a body. -/
theorem parse_make_roundtrip_witness :
    JsClient.parseMessage (JsClient.makeMessage
        ⟨"Alpha", [("K-x", "v:w"), ("b", "")], "body line"⟩) =
      ⟨String.mk (("Alpha" : String).data.map Char.toUpper),
       [(("K-x" : String), ("v:w" : String)), (("b" : String), ("" : String))].map
         (fun p => (String.mk (p.1.data.map Char.toLower), p.2)),
       "body line"⟩ :=
  parse_make_roundtrip ⟨"Alpha", [("K-x", "v:w"), ("b", "")], "body line"⟩
    (by decide) (by decide) (by decide) (by decide) (by decide) (by decide)

end PRC
